import Mathlib

/-!
# Verification of the UNS Shain-Daicho record store (src/src/database.py)

Shallow embedding of the SQLite-backed employee record store: the field
normalizer, the CRUD operations with soft-delete and audit log, the
Excel importer and the visa-alert analytics, translated from
src/src/database.py.  Machine dates are day numbers (days since
1970-01-01, proleptic Gregorian); Python values are modelled by the
inductive type PyVal; SQL state is modelled by explicit tables and an
audit list; every mutating operation is one atomic state transition,
matching the per-call connection + single-commit structure of the code.
-/

namespace ShainDB

/-! ## Calendar arithmetic (civil calendar, days since 1970-01-01) -/

/-- Day number of a civil date (Howard Hinnant's `days_from_civil`).
Day 0 is 1970-01-01. -/
def daysFromCivil (y m d : Int) : Int :=
  let y' := if m ≤ 2 then y - 1 else y
  let era := (if 0 ≤ y' then y' else y' - 399) / 400
  let yoe := y' - era * 400
  let mp := (m + 9) % 12
  let doy := (153 * mp + 2) / 5 + d - 1
  let doe := yoe * 365 + yoe / 4 - yoe / 100 + doy
  era * 146097 + doe - 719468

/-- Civil date of a day number (Howard Hinnant's `civil_from_days`). -/
def civilFromDays (z0 : Int) : Int × Int × Int :=
  let z := z0 + 719468
  let era := (if 0 ≤ z then z else z - 146096) / 146097
  let doe := z - era * 146097
  let yoe := (doe - doe / 1460 + doe / 36524 - doe / 146096) / 365
  let y := yoe + era * 400
  let doy := doe - (365 * yoe + yoe / 4 - yoe / 100)
  let mp := (5 * doy + 2) / 153
  let d := doy - (153 * mp + 2) / 5 + 1
  let m := mp + (if mp < 10 then 3 else -9)
  (if m ≤ 2 then y + 1 else y, m, d)

/-- Left-pad the decimal representation of a nonnegative integer with zeros. -/
def padNum (width : Nat) (n : Int) : String :=
  let s := toString n.natAbs
  String.mk (List.replicate (width - s.length) '0') ++ s

/-- `strftime("%Y-%m-%d")` of the date with the given day number. -/
def isoOfDays (z : Int) : String :=
  let c := civilFromDays z
  padNum 4 c.1 ++ "-" ++ padNum 2 c.2.1 ++ "-" ++ padNum 2 c.2.2

def isLeapYear (y : Int) : Bool :=
  (y % 4 == 0 && y % 100 != 0) || y % 400 == 0

def daysInMonth (y m : Int) : Int :=
  if m = 2 then (if isLeapYear y then 29 else 28)
  else if m = 4 ∨ m = 6 ∨ m = 9 ∨ m = 11 then 30
  else 31

/-! ## Python value model

`PyVal` models the cell values the normalizer receives: `pynone` is
Python `None`, `nan` the float NaN, `int`/`float` numbers (`float`
carries the exact value of a finite non-NaN float as a rational;
infinities are outside the model), `str` strings, `date` a
`pd.Timestamp`/`datetime` at midnight of the given day number, and
`nat` is `pd.NaT`. -/

inductive PyVal where
  | pynone
  | nan
  | int (n : Int)
  | float (q : ℚ)
  | str (s : String)
  | date (day : Int)
  | nat
deriving DecidableEq

/-- Python `str.strip()` on a character list (leading and trailing
whitespace removed; structural recursion, unlike `String.trim`). -/
def trimChars (cs : List Char) : List Char :=
  ((cs.dropWhile Char.isWhitespace).reverse.dropWhile Char.isWhitespace).reverse

/-- Python `str.strip()`. -/
def pyStrip (s : String) : String := ⟨trimChars s.data⟩

/-- Python `str.lower()`. -/
def pyLower (s : String) : String := ⟨s.data.map Char.toLower⟩

/-- Python `s[:n]` (first `n` characters). -/
def strTake (s : String) (n : Nat) : String := ⟨s.data.take n⟩

/-- Digits of a character list read as a natural number. -/
def natOfDigits (cs : List Char) : Nat :=
  cs.foldl (fun a c => a * 10 + (c.toNat - 48)) 0

/-- Fractional decimal digits of `num/den` (with `num < den`), trailing
zeros omitted, up to `fuel` digits. -/
def fracDigits (num den : Nat) (fuel : Nat) : String :=
  match fuel with
  | 0 => ""
  | fuel + 1 =>
    if num = 0 then ""
    else
      let n10 := num * 10
      toString (n10 / den) ++ fracDigits (n10 % den) den fuel

/-- Python `repr`/`str` of a finite float: exact decimal expansion
(faithful for the short dyadic values the code meets, where the shortest
round-tripping representation is the exact expansion). -/
def pyStrOfFloat (q : ℚ) : String :=
  let sign := if q.num < 0 then "-" else ""
  let na := q.num.natAbs
  let ip := na / q.den
  let fp := na % q.den
  sign ++ toString ip ++ "." ++ (if fp = 0 then "0" else fracDigits fp q.den 30)

/-- Python `str(value)`. -/
def pyStr : PyVal → String
  | .pynone => "None"
  | .nan => "nan"
  | .int n => toString n
  | .float q => pyStrOfFloat q
  | .str s => s
  | .date d => isoOfDays d ++ " 00:00:00"
  | .nat => "NaT"

/-- Result of Python `float(value)`: a number, NaN, or a raised
`TypeError`/`ValueError`. -/
inductive FloatVal where
  | val (q : ℚ)
  | nanv
  | err
deriving DecidableEq

/-- Parse the mantissa of a float literal (digits, optionally one dot). -/
def parseMantissa (cs : List Char) : Option ℚ :=
  let ip := cs.takeWhile Char.isDigit
  let rest := cs.dropWhile Char.isDigit
  match rest with
  | [] => if ip = [] then none else some (natOfDigits ip)
  | '.' :: fp =>
    if fp.all Char.isDigit && (ip ≠ [] || fp ≠ []) then
      some ((natOfDigits ip : ℚ) + (natOfDigits fp : ℚ) / (10 : ℚ) ^ fp.length)
    else none
  | _ => none

/-- Parse the exponent of a float literal (optional sign, digits). -/
def parseExpChars : List Char → Option Int
  | '-' :: ds =>
    if ds ≠ [] && ds.all Char.isDigit then some (-(natOfDigits ds : Int))
    else none
  | '+' :: ds =>
    if ds ≠ [] && ds.all Char.isDigit then some (natOfDigits ds) else none
  | ds =>
    if ds ≠ [] && ds.all Char.isDigit then some (natOfDigits ds) else none

/-- Ten to an integer power, as an exact rational. -/
def pow10 (k : Int) : ℚ :=
  if 0 ≤ k then ((10 : ℚ) ^ k.toNat) else (1 : ℚ) / (10 : ℚ) ^ (-k).toNat

/-- Parse an unsigned Python float literal: mantissa with an optional
`e`/`E` exponent. -/
def parseUnsignedDec (cs : List Char) : Option ℚ :=
  let mant := cs.takeWhile (fun c => !(c = 'e' || c = 'E'))
  let rest := cs.dropWhile (fun c => !(c = 'e' || c = 'E'))
  match parseMantissa mant with
  | none => none
  | some q =>
    match rest with
    | [] => some q
    | _ :: ex =>
      match parseExpChars ex with
      | none => none
      | some k => some (q * pow10 k)

/-- Python `float(s)` on a string: strips whitespace, accepts a sign and
a decimal literal with an optional exponent, `nan` case-insensitively;
otherwise `ValueError`.  (Infinities are outside the model.) -/
def pyParseFloat (s : String) : FloatVal :=
  let t := pyStrip s
  if pyLower t = "nan" || pyLower t = "+nan" || pyLower t = "-nan" then .nanv
  else
    match t.toList with
    | '-' :: cs => (match parseUnsignedDec cs with
                    | some q => .val (-q)
                    | none => .err)
    | '+' :: cs => (match parseUnsignedDec cs with
                    | some q => .val q
                    | none => .err)
    | cs => (match parseUnsignedDec cs with
             | some q => .val q
             | none => .err)

/-- Python `float(value)`. -/
def pyFloat : PyVal → FloatVal
  | .pynone => .err
  | .nan => .nanv
  | .int n => .val n
  | .float q => .val q
  | .str s => pyParseFloat s
  | .date _ => .err
  | .nat => .nanv

/-! ## Date parsing

`strptimeYMD` models `datetime.strptime(s, "%Y-%m-%d")` (1-4 digit
year ≥ 1, 1-2 digit month/day, the whole string consumed).
`pdParseDate` models `pd.to_datetime(s, errors="raise")` on the shapes
the data meets: `Y-M-D`, `Y/M/D` or `YYYYMMDD` dates, two-digit years
via the `%y` pivot, an optional ` HH:MM:SS` time-of-day, restricted to
the pandas `Timestamp` range; everything else raises (returns none). -/

def checkYMDParts (ys ms ds : List Char) : Option (Int × Int × Int) :=
  if ys ≠ [] && ys.length ≤ 4 && ys.all Char.isDigit &&
     ms ≠ [] && ms.length ≤ 2 && ms.all Char.isDigit &&
     ds ≠ [] && ds.length ≤ 2 && ds.all Char.isDigit then
    let y : Int := natOfDigits ys
    let m : Int := natOfDigits ms
    let d : Int := natOfDigits ds
    if 1 ≤ y ∧ 1 ≤ m ∧ m ≤ 12 ∧ 1 ≤ d ∧ d ≤ daysInMonth y m then
      some (y, m, d)
    else none
  else none

/-- `datetime.strptime(s, "%Y-%m-%d")`, as a day number. -/
def strptimeYMD (s : String) : Option Int :=
  match s.toList.splitOn '-' with
  | [ys, ms, ds] =>
    match checkYMDParts ys ms ds with
    | some c => some (daysFromCivil c.1 c.2.1 c.2.2)
    | none => none
  | _ => none

/-- Nanoseconds per day. -/
def nsPerDay : Int := 86400000000000

/-- `pd.Timestamp`/`pd.Timedelta` bound: `2^63 - 1` nanoseconds. -/
def tsBoundNs : Int := 9223372036854775807

/-- First day number representable as a midnight `pd.Timestamp`
(1677-09-22; `Timestamp.min` is 1677-09-21 00:12:43.145224193). -/
def tsMinDay : Int := daysFromCivil 1677 9 22

/-- Last day number representable as a midnight `pd.Timestamp`
(2262-04-11). -/
def tsMaxDay : Int := daysFromCivil 2262 4 11

/-- A valid `HH:MM:SS` time-of-day (fractional seconds and timezone
suffixes are outside the model). -/
def validTimeChars (cs : List Char) : Bool :=
  match cs.splitOn ':' with
  | [hs, ms, ss] =>
    hs ≠ [] && hs.length ≤ 2 && hs.all Char.isDigit &&
    ms ≠ [] && ms.length ≤ 2 && ms.all Char.isDigit &&
    ss ≠ [] && ss.length ≤ 2 && ss.all Char.isDigit &&
    natOfDigits hs ≤ 23 && natOfDigits ms ≤ 59 && natOfDigits ss ≤ 59
  | _ => false

/-- The `%y` two-digit-year convention the parser applies (69-99 →
19xx, 0-68 → 20xx); 3-4 digit years are taken literally. -/
def pdTwoDigitYear (ys : List Char) (y : Int) : Int :=
  if ys.length ≤ 2 then (if y ≤ 68 then 2000 + y else 1900 + y) else y

/-- `pd.to_datetime(s, errors="raise")`, as a day number: `Y-M-D`,
`Y/M/D` or `YYYYMMDD` dates with 1-4 digit years (two-digit years via
the `%y` pivot) and an optional ` HH:MM:SS` time-of-day — the shape
`dtype=str` spreadsheet date cells and `str(Timestamp)` take — within
the pandas `Timestamp` range; everything else raises (returns none). -/
def pdParseDate (s : String) : Option Int :=
  let cs := trimChars s.data
  let dateCs := cs.takeWhile (fun c => !(c = ' '))
  let restCs := cs.dropWhile (fun c => !(c = ' '))
  let timeOk := match restCs with
    | [] => true
    | _ :: t => validTimeChars t
  if !timeOk then none
  else
    let parts : Option (List Char × List Char × List Char) :=
      if dateCs.length = 8 && dateCs.all Char.isDigit then
        some (dateCs.take 4, (dateCs.drop 4).take 2, dateCs.drop 6)
      else if dateCs.contains '-' then
        match dateCs.splitOn '-' with
        | [ys, ms, ds] => some (ys, ms, ds)
        | _ => none
      else if dateCs.contains '/' then
        match dateCs.splitOn '/' with
        | [ys, ms, ds] => some (ys, ms, ds)
        | _ => none
      else none
    match parts with
    | none => none
    | some (ys, ms, ds) =>
      if ys ≠ [] && ys.length ≤ 4 && ys.all Char.isDigit &&
         ms ≠ [] && ms.length ≤ 2 && ms.all Char.isDigit &&
         ds ≠ [] && ds.length ≤ 2 && ds.all Char.isDigit then
        let y := pdTwoDigitYear ys (natOfDigits ys)
        let m : Int := natOfDigits ms
        let d : Int := natOfDigits ds
        if 1 ≤ m ∧ m ≤ 12 ∧ 1 ≤ d ∧ d ≤ daysInMonth y m then
          let z := daysFromCivil y m d
          if tsMinDay ≤ z ∧ z ≤ tsMaxDay then some z else none
        else none
      else none

/-! ## The field normalizer (`_excel_date_to_iso`, `_clean`) -/

/-- Excel epoch 1899-12-30 as a day number. -/
def excelEpochDay : Int := daysFromCivil 1899 12 30

/-- `pd.Timestamp("1899-12-30") + pd.Timedelta(days=q)` succeeds exactly
when the delta and the resulting timestamp both fit in signed 64-bit
nanoseconds: `|q·nsPerDay| ≤ tsBoundNs` and
`|(excelEpochDay + q)·nsPerDay| ≤ tsBoundNs`, here cross-multiplied by
the (positive) denominator of `q` so everything is integer arithmetic;
otherwise `OutOfBoundsTimedelta`/`OutOfBoundsDatetime` (both
`ValueError` subclasses) are raised and caught by the code. -/
def serialInBounds (q : ℚ) : Prop :=
  (q.num * nsPerDay).natAbs ≤ tsBoundNs.natAbs * q.den ∧
  ((excelEpochDay * (q.den : Int) + q.num) * nsPerDay).natAbs
    ≤ tsBoundNs.natAbs * q.den

instance (q : ℚ) : Decidable (serialInBounds q) := by
  unfold serialInBounds; infer_instance

/-- `⌊q⌋` by floor division of numerator by denominator (the `strftime`
date of a fractional-day timestamp is the floor). -/
def ratFloor (q : ℚ) : Int := Int.fdiv q.num q.den

/-- Fallback branch of `_excel_date_to_iso`:
`pd.to_datetime(str(value), errors="raise")` then `strftime`, `None` on
any exception. -/
def excelDateFallback (v : PyVal) : Option String :=
  match pdParseDate (pyStr v) with
  | some z => some (isoOfDays z)
  | none => none

/-- `_excel_date_to_iso(value)` from src/src/database.py. -/
def excel_date_to_iso (v : PyVal) : Option String :=
  match v with
  | .pynone => none
  | .nan => none
  | .nat => none
  | .date d => some (isoOfDays d)
  | _ =>
    match pyFloat v with
    | .val q =>
      if q = 0 then none
      else if serialInBounds q then some (isoOfDays (excelEpochDay + ratFloor q))
      else excelDateFallback v
    | .nanv => excelDateFallback v
    | .err => excelDateFallback v

/-- `DATE_COLS` from src/src/database.py. -/
def dateCols : List String :=
  ["生年月日", "ビザ期限", "入居", "入社日", "退社日", "退去",
   "免許期限", "任意保険期限"]

/-- `NUMERIC_COLS` from src/src/database.py. -/
def numericCols : List String :=
  ["社員№", "年齢", "時給", "時給改定", "請求単価", "請求改定", "差額利益",
   "標準報酬", "健康保険", "介護保険", "厚生年金", "通勤距離", "交通費",
   "派遣先ID", "支店番号"]

/-- The sentinel strings `("0", "nan", "NaT", "None", "NaN", "")`. -/
def sentinelStrs : List String := ["0", "nan", "NaT", "None", "NaN", ""]

/-- `_clean(col, value)` from src/src/database.py. -/
def clean (col : String) (v : PyVal) : Option String :=
  if v = .pynone ∨ v = .nan then none
  else
    let sv := pyStrip (pyStr v)
    if sentinelStrs.contains sv then none
    else if dateCols.contains col then excel_date_to_iso v
    else if numericCols.contains col then
      match pyFloat v with
      | .val q => some (if q.den = 1 then toString q.num else pyStrOfFloat q)
      | .nanv => none
      | .err => some sv
    else some sv

/-! ## Schemas (`GENZAI_COLS`, `UKEOI_COLS`, `STAFF_COLS`) -/

def GENZAI_COLS : List String :=
  ["現在", "社員№", "派遣先ID", "派遣先", "配属先", "配属ライン", "仕事内容",
   "氏名", "カナ", "性別", "国籍", "生年月日", "年齢", "時給", "時給改定",
   "請求単価", "請求改定", "差額利益", "標準報酬", "健康保険", "介護保険", "厚生年金",
   "ビザ期限", "ビザ種類", "〒", "住所", "ｱﾊﾟｰﾄ", "入居", "入社日", "退社日",
   "退去", "社保加入", "入社依頼", "備考", "現入社", "免許種類", "免許期限",
   "通勤方法", "任意保険期限", "日本語検定", "キャリアアップ5年目"]

def UKEOI_COLS : List String :=
  ["現在", "社員№", "請負業務", "氏名", "カナ", "性別", "国籍", "生年月日", "年齢",
   "時給", "時給改定", "標準報酬", "健康保険", "介護保険", "厚生年金", "通勤距離",
   "交通費", "差額利益", "ビザ期限", "ビザ種類", "〒", "住所", "ｱﾊﾟｰﾄ", "入居",
   "入社日", "退社日", "退去", "社保加入", "口座名義", "銀行名", "支店番号",
   "支店名", "口座番号", "入社依頼", "備考"]

def STAFF_COLS : List String :=
  ["現在", "社員№", "事務所", "氏名", "カナ", "性別", "国籍", "生年月日", "年齢",
   "ビザ期限", "ビザ種類", "配偶者", "〒", "住所", "建物名", "入社日", "退社日",
   "社保加入", "雇用保険", "携帯電話", "携帯代行", "銀行", "支店", "口座番号", "名義"]

/-- The three category tables (`_ALL_TABLES`). -/
inductive TName where
  | genzai
  | ukeoi
  | staff
deriving DecidableEq

/-- `_table_cols(table)`. -/
def tableCols : TName → List String
  | .genzai => GENZAI_COLS
  | .ukeoi => UKEOI_COLS
  | .staff => STAFF_COLS

def tnameStr : TName → String
  | .genzai => "genzai"
  | .ukeoi => "ukeoi"
  | .staff => "staff"

/-! ## Persistent state model

A row holds its category columns (an association list; a missing key and
a key mapped to `Option.none` both model SQL NULL) plus the system
columns `deleted_at` / `updated_at`.  A table is its rows in rowid order
together with the AUTOINCREMENT counter (never reset, ids never
reused).  Audit payloads are modelled structurally instead of as JSON
text. -/

structure Row where
  fields : List (String × Option String)
  deleted_at : Option String
  updated_at : String
deriving DecidableEq

/-- Value of column `c` in a row (`None` for SQL NULL). -/
def Row.get (r : Row) (c : String) : Option String :=
  (r.fields.lookup c).join

structure Table where
  rows : List (Nat × Row)
  nextId : Nat
deriving DecidableEq

inductive AuditPayload where
  | nullP
  | insertP (kv : List (String × String))
  | updateP (kv : List (String × String × String))
  | importP (counts : List (String × Nat))
deriving DecidableEq

structure AuditEntry where
  table_name : String
  row_id : Option Nat
  action : String
  employee_name : Option String
  changes : AuditPayload
  changed_at : String
deriving DecidableEq

structure DB where
  genzai : Table
  ukeoi : Table
  staff : Table
  audit : List AuditEntry
deriving DecidableEq

def DB.tbl (db : DB) : TName → Table
  | .genzai => db.genzai
  | .ukeoi => db.ukeoi
  | .staff => db.staff

def DB.setTbl (db : DB) : TName → Table → DB
  | .genzai, t => { db with genzai := t }
  | .ukeoi, t => { db with ukeoi := t }
  | .staff, t => { db with staff := t }

def DB.addAudit (db : DB) (e : AuditEntry) : DB :=
  { db with audit := db.audit ++ [e] }

/-- `str(x)` of a fetched SQL value: NULL prints as `"None"`. -/
def pyStrOfStored : Option String → String
  | none => "None"
  | some s => s

/-! ## Reads (`get_employee`, `get_all`, `get_deleted`) -/

/-- `SELECT * FROM table WHERE id = ?` (first match in rowid order). -/
def Table.findRow (t : Table) (rid : Nat) : Option (Nat × Row) :=
  t.rows.find? (fun ir => ir.1 = rid)

/-- `get_employee(table, row_id)`. -/
def get_employee (db : DB) (tn : TName) (rid : Nat) : Option Row :=
  ((db.tbl tn).findRow rid).map (·.2)

/-- Category-specific active-status predicate used by `get_all`. -/
def activePred : TName → Row → Bool
  | .genzai, r => r.get "現在" == some "在職中"
  | .ukeoi, r => r.get "現在" == some "在職中"
  | .staff, r => !(r.get "入社日" == none) && r.get "退社日" == none

/-- `get_all(table, active_only, include_deleted)` (rows in rowid order). -/
def get_all (db : DB) (tn : TName) (active_only : Bool := false)
    (include_deleted : Bool := false) : List (Nat × Row) :=
  (db.tbl tn).rows.filter (fun ir =>
    (include_deleted || ir.2.deleted_at == none) &&
    (!active_only || activePred tn ir.2))

/-- Descending order on `deleted_at` values (all non-NULL here). -/
def deletedAtDesc (a b : Nat × Row) : Prop :=
  (b.2.deleted_at.getD "") ≤ (a.2.deleted_at.getD "")

instance : DecidableRel deletedAtDesc := by
  unfold deletedAtDesc; infer_instance

/-- `get_deleted(table)`: soft-deleted rows, `ORDER BY deleted_at DESC`. -/
def get_deleted (db : DB) (tn : TName) : List (Nat × Row) :=
  List.insertionSort deletedAtDesc
    ((db.tbl tn).rows.filter (fun ir => !(ir.2.deleted_at == none)))

/-! ## Writes (`add_employee`, `update_employee`, `delete_employee`,
`restore_employee`, `hard_delete_employee`)

Each operation takes the `datetime('now','localtime')` string of its
connection as the `now` parameter and performs the row change and the
audit insert in one transition (one transaction in the code). -/

/-- `{k: _clean(k, v) for k, v in data.items() if k in cols}`. -/
def validFields (tn : TName) (data : List (String × PyVal)) :
    List (String × Option String) :=
  (data.filter (fun kv => (tableCols tn).contains kv.1)).map
    (fun kv => (kv.1, clean kv.1 kv.2))

inductive SqlError where
  | syntaxError
deriving DecidableEq

/-- `add_employee(table, data)`.  With no recognized fields the built SQL
`INSERT INTO t (, updated_at) VALUES (, ...)` is malformed and sqlite
raises an OperationalError before anything is written. -/
def add_employee (db : DB) (tn : TName) (data : List (String × PyVal))
    (now : String) : DB × Except SqlError Nat :=
  let valid := validFields tn data
  if valid.isEmpty then (db, .error .syntaxError)
  else
    let t := db.tbl tn
    let newId := t.nextId
    let row : Row :=
      { fields := (tableCols tn).map (fun c => (c, (valid.lookup c).join)),
        deleted_at := none,
        updated_at := now }
    let name : Option String :=
      match valid.lookup "氏名" with
      | some v => v
      | none => some ""
    let entry : AuditEntry :=
      { table_name := tnameStr tn, row_id := some newId, action := "INSERT",
        employee_name := name,
        changes := .insertP (valid.map (fun kv => (kv.1, pyStrOfStored kv.2))),
        changed_at := now }
    ((db.setTbl tn { rows := t.rows ++ [(newId, row)], nextId := t.nextId + 1 }).addAudit
       entry,
     .ok newId)

/-- `str(old.get(k, ""))`: from a fetched row the raw value (NULL prints
`"None"`); from the empty dict of a missing row, `""`. -/
def strOfOld (old : Option Row) (k : String) : String :=
  match old with
  | none => ""
  | some r => pyStrOfStored (r.get k)

/-- `str(v or "")`: normalized NULL prints as `""`. -/
def strOfNew : Option String → String
  | none => ""
  | some s => s

/-- The changed-field diff computed by `update_employee`. -/
def updateDiff (old : Option Row) (valid : List (String × Option String)) :
    List (String × Option String) :=
  valid.filter (fun kv => !(strOfOld old kv.1 == strOfNew kv.2))

/-- `UPDATE t SET ... WHERE id = rid`: rewrite the matching rows with
`g`, leave ids and other rows untouched. -/
def setRow (rows : List (Nat × Row)) (rid : Nat) (g : Row → Row) :
    List (Nat × Row) :=
  rows.map (fun ir => if ir.1 = rid then (ir.1, g ir.2) else ir)

/-- `UPDATE t SET <valid>, updated_at = now WHERE id = rid` applied to the
row list (ids untouched, non-matching rows untouched). -/
def applyUpdate (rows : List (Nat × Row)) (rid : Nat)
    (valid : List (String × Option String)) (now : String) :
    List (Nat × Row) :=
  setRow rows rid (fun r =>
    { fields := r.fields.map (fun cv =>
        match valid.lookup cv.1 with
        | some nv => (cv.1, nv)
        | none => cv),
      deleted_at := r.deleted_at,
      updated_at := now })

/-- `update_employee(table, row_id, data)`.  Returns `True` whenever at
least one recognized field was supplied, whether or not the id exists. -/
def update_employee (db : DB) (tn : TName) (rid : Nat)
    (data : List (String × PyVal)) (now : String) : DB × Bool :=
  let valid := validFields tn data
  if valid.isEmpty then (db, false)
  else
    let old := get_employee db tn rid
    let changed := updateDiff old valid
    let name : Option String :=
      match old with
      | none => some ""
      | some r => r.get "氏名"
    let t := db.tbl tn
    let db1 := db.setTbl tn { t with rows := applyUpdate t.rows rid valid now }
    let db2 :=
      if changed.isEmpty then db1
      else
        db1.addAudit
          { table_name := tnameStr tn, row_id := some rid, action := "UPDATE",
            employee_name := name,
            changes := .updateP (changed.map (fun kv =>
              (kv.1, strOfOld old kv.1, pyStrOfStored kv.2))),
            changed_at := now }
    (db2, true)

/-- `emp.get("氏名", "") if emp else ""` as used by the delete family. -/
def nameOf (emp : Option Row) : Option String :=
  match emp with
  | none => some ""
  | some r => r.get "氏名"

/-- `delete_employee(table, row_id)`: soft delete.  The audit insert is
unconditional; the return value is `cur.rowcount > 0`. -/
def delete_employee (db : DB) (tn : TName) (rid : Nat) (now : String) :
    DB × Bool :=
  let emp := get_employee db tn rid
  let t := db.tbl tn
  let newRows := setRow t.rows rid (fun r => { r with deleted_at := some now })
  let db1 := (db.setTbl tn { t with rows := newRows }).addAudit
    { table_name := tnameStr tn, row_id := some rid, action := "DELETE",
      employee_name := nameOf emp, changes := .nullP, changed_at := now }
  (db1, t.rows.any (fun ir => ir.1 = rid))

/-- `restore_employee(table, row_id)`: clears `deleted_at`, refreshes
`updated_at`; unconditional audit insert; returns `cur.rowcount > 0`. -/
def restore_employee (db : DB) (tn : TName) (rid : Nat) (now : String) :
    DB × Bool :=
  let emp := get_employee db tn rid
  let t := db.tbl tn
  let newRows := setRow t.rows rid
    (fun r => { r with deleted_at := none, updated_at := now })
  let db1 := (db.setTbl tn { t with rows := newRows }).addAudit
    { table_name := tnameStr tn, row_id := some rid, action := "RESTORE",
      employee_name := nameOf emp, changes := .nullP, changed_at := now }
  (db1, t.rows.any (fun ir => ir.1 = rid))

/-- `hard_delete_employee(table, row_id)`: removes the row permanently;
unconditional audit insert; returns `cur.rowcount > 0`. -/
def hard_delete_employee (db : DB) (tn : TName) (rid : Nat) (now : String) :
    DB × Bool :=
  let emp := get_employee db tn rid
  let t := db.tbl tn
  let db1 := (db.setTbl tn
      { t with rows := t.rows.filter (fun ir => !(ir.1 = rid : Bool)) }).addAudit
    { table_name := tnameStr tn, row_id := some rid, action := "HARD_DELETE",
      employee_name := nameOf emp, changes := .nullP, changed_at := now }
  (db1, t.rows.any (fun ir => ir.1 = rid))

/-! ## Importer (`import_from_excel`)

A workbook maps each category to its sheet when `pd.read_excel`
succeeds for that sheet name, and to `none` when reading raises (the
code logs a warning, records a zero count and continues).  A sheet is
its header columns plus one association list of cell values per data
row (`df.iterrows` with `row.get(c)`). -/

structure Sheet where
  cols : List String
  cells : List (List (String × PyVal))
deriving DecidableEq

/-- Staff-sheet fix-up: an unlabeled first column is renamed `現在`.
The check `df.columns[0] != "現在"` raises an uncaught IndexError on a
zero-column frame (a present but blank staff sheet), modelled as
`none`; this happens before any staff-table SQL statement. -/
def remapStaff (tn : TName) (s : Sheet) : Option Sheet :=
  match tn with
  | .staff =>
    match s.cols with
    | [] => none
    | h :: rest =>
      if h = "現在" then some s
      else
        some { cols := "現在" :: rest,
               cells := s.cells.map (fun row =>
                 row.map (fun kv => if kv.1 = h then ("現在", kv.2) else kv)) }
  | _ => some s

/-- Drop the formula-only column `ｱﾗｰﾄ(ﾋﾞｻﾞ更新)`. -/
def dropAlertCol (s : Sheet) : Sheet :=
  { cols := s.cols.filter (fun c => !(c == "ｱﾗｰﾄ(ﾋﾞｻﾞ更新)")),
    cells := s.cells.map (fun row =>
      row.filter (fun kv => !(kv.1 == "ｱﾗｰﾄ(ﾋﾞｻﾞ更新)"))) }

def processSheet (tn : TName) (s : Sheet) : Option Sheet :=
  (remapStaff tn s).map dropAlertCol

/-- `active = [c for c in cols if c in df.columns]`. -/
def activeCols (tn : TName) (s : Sheet) : List String :=
  (tableCols tn).filter (fun c => s.cols.contains c)

/-- `vals = [_clean(c, row.get(c)) for c in active]` (a column absent
from the sheet reads as NaN). -/
def rowVals (active : List String) (row : List (String × PyVal)) :
    List (String × Option String) :=
  active.map (fun c => (c, clean c ((row.lookup c).getD .nan)))

/-- The normalized value lists actually inserted for a processed sheet:
rows whose every normalized value is NULL are skipped. -/
def insertedVals (tn : TName) (s : Sheet) : List (List (String × Option String)) :=
  ((s.cells).map (rowVals (activeCols tn s))).filter
    (fun vals => !(vals.all (fun cv => cv.2 == none)))

def mkImportRow (tn : TName) (vals : List (String × Option String))
    (now : String) : Row :=
  { fields := (tableCols tn).map (fun c => (c, (vals.lookup c).join)),
    deleted_at := none,
    updated_at := now }

/-- The uncaught exception the import can die with: the IndexError of
`df.columns[0]` on a zero-column staff sheet. -/
inductive ImportError where
  | indexError
deriving DecidableEq

instance {ε α : Type} [DecidableEq ε] [DecidableEq α] :
    DecidableEq (Except ε α)
  | .error e, .error f =>
    if h : e = f then isTrue (by rw [h])
    else isFalse (by intro hc; cases hc; exact h rfl)
  | .error _, .ok _ => isFalse (by intro hc; cases hc)
  | .ok _, .error _ => isFalse (by intro hc; cases hc)
  | .ok a, .ok b =>
    if h : a = b then isTrue (by rw [h])
    else isFalse (by intro hc; cases hc; exact h rfl)

/-- One category of the import loop: on a readable sheet, `DELETE FROM
table` then insert the surviving rows (AUTOINCREMENT continues from
`nextId`); on an unreadable sheet, record 0 and leave the table alone;
`none` when the column fix-up raises before any SQL statement runs. -/
def importStep (db : DB) (tn : TName) (osheet : Option Sheet) (now : String) :
    Option (DB × Nat) :=
  match osheet with
  | none => some (db, 0)
  | some s0 =>
    match processSheet tn s0 with
    | none => none
    | some s =>
      let vl := insertedVals tn s
      let t := db.tbl tn
      some (db.setTbl tn
        { rows := vl.enum.map
            (fun iv => (t.nextId + iv.1, mkImportRow tn iv.2 now)),
          nextId := t.nextId + vl.length },
       vl.length)

/-- `import_from_excel(excel_path)`: the three sheets in fixed order,
then one system-level IMPORT audit entry with the per-category counts.
If a step raises, the exception propagates out of the call: the
categories already committed keep their new contents, but no counts are
returned and no IMPORT audit entry is written. -/
def import_from_excel (db : DB) (wb : TName → Option Sheet) (now : String) :
    DB × Except ImportError (List (TName × Nat)) :=
  match importStep db .genzai (wb .genzai) now with
  | none => (db, .error .indexError)
  | some (db1, c1) =>
    match importStep db1 .ukeoi (wb .ukeoi) now with
    | none => (db1, .error .indexError)
    | some (db2, c2) =>
      match importStep db2 .staff (wb .staff) now with
      | none => (db2, .error .indexError)
      | some (db3, c3) =>
        (db3.addAudit
          { table_name := "*", row_id := none, action := "IMPORT",
            employee_name := some "system",
            changes := .importP
              [("genzai", c1), ("ukeoi", c2), ("staff", c3)],
            changed_at := now },
         .ok [(.genzai, c1), (.ukeoi, c2), (.staff, c3)])

/-! ## Visa alerts (`get_visa_alerts`) -/

/-- SQLite BINARY (bytewise UTF-8, i.e. codepoint-lexicographic)
string comparison `a <= b`. -/
def charListLe : List Char → List Char → Bool
  | [], _ => true
  | _ :: _, [] => false
  | a :: as, b :: bs =>
    if a = b then charListLe as bs else decide (a.val < b.val)

def sqlLe (a b : String) : Bool := charListLe a.data b.data

structure Alert where
  id : Nat
  category : String
  table : TName
  employee_id : Option String
  name : String
  visa_type : String
  expiry_date : String
  days_left : Int
  alert_level : String
  alert_class : String
deriving DecidableEq

/-- The severity ladder of `get_visa_alerts`. -/
def severityOf (dl : Int) : String × String :=
  if dl ≤ 0 then ("🔴 期限切れ", "expired")
  else if dl ≤ 30 then ("🔴 緊急", "urgent")
  else if dl ≤ 60 then ("🟠 警告", "warning")
  else ("🟡 注意", "upcoming")

/-- The SQL WHERE clause: visa non-NULL, non-empty, at most the cutoff
(TEXT comparison), row not soft-deleted, and for `genzai`/`ukeoi` the
status column equal to `在職中`. -/
def visaWhere (tn : TName) (cutoff : String) (ir : Nat × Row) : Bool :=
  (match ir.2.get "ビザ期限" with
   | some v => !(v == "") && sqlLe v cutoff
   | none => false) &&
  (ir.2.deleted_at == none) &&
  (match tn with
   | .staff => true
   | _ => ir.2.get "現在" == some "在職中")

/-- `ORDER BY "ビザ期限"`. -/
def visaOrder (a b : Nat × Row) : Prop :=
  sqlLe ((a.2.get "ビザ期限").getD "") ((b.2.get "ビザ期限").getD "") = true

instance : DecidableRel visaOrder := by
  unfold visaOrder; infer_instance

/-- `x or "—"` on a fetched text value. -/
def orDash : Option String → String
  | none => "—"
  | some s => if s = "" then "—" else s

/-- Build one alert from a fetched row; rows whose visa value does not
`strptime` as `%Y-%m-%d` on its first 10 characters are skipped. -/
def mkAlert (tn : TName) (label : String) (today : Int) (ir : Nat × Row) :
    Option Alert :=
  let v := (ir.2.get "ビザ期限").getD ""
  match strptimeYMD (strTake v 10) with
  | none => none
  | some e =>
    let dl := e - today
    some { id := ir.1, category := label, table := tn,
           employee_id := ir.2.get "社員№",
           name := orDash (ir.2.get "氏名"),
           visa_type := orDash (ir.2.get "ビザ種類"),
           expiry_date := strTake v 10,
           days_left := dl,
           alert_level := (severityOf dl).1,
           alert_class := (severityOf dl).2 }

def tableAlerts (db : DB) (tn : TName) (label : String) (today : Int)
    (cutoff : String) : List Alert :=
  (List.insertionSort visaOrder
    ((db.tbl tn).rows.filter (visaWhere tn cutoff))).filterMap
    (mkAlert tn label today)

/-- Final `alerts.sort(key=lambda x: x["days_left"])` order. -/
def alertLe (a b : Alert) : Prop := a.days_left ≤ b.days_left

instance : DecidableRel alertLe := by
  unfold alertLe; infer_instance

instance : IsTotal Alert alertLe := ⟨fun a b => Int.le_total a.days_left b.days_left⟩

instance : IsTrans Alert alertLe := ⟨fun _ _ _ h h' => le_trans h h'⟩

/-- `get_visa_alerts(days)` evaluated with `datetime.now()` at midnight
of day number `today`; `cutoff = (today + timedelta(days)).strftime`. -/
def get_visa_alerts (db : DB) (today : Int) (days : Int) : List Alert :=
  let cutoff := isoOfDays (today + days)
  List.insertionSort alertLe
    (tableAlerts db .genzai "派遣" today cutoff ++
     tableAlerts db .ukeoi "請負" today cutoff ++
     tableAlerts db .staff "スタッフ" today cutoff)

/-! ## Basic state lemmas -/

@[simp] theorem audit_setTbl (db : DB) (tn : TName) (t : Table) :
    (db.setTbl tn t).audit = db.audit := by
  cases tn <;> rfl

@[simp] theorem tbl_setTbl_self (db : DB) (tn : TName) (t : Table) :
    (db.setTbl tn t).tbl tn = t := by
  cases tn <;> rfl

theorem tbl_setTbl_other (db : DB) (tn tn' : TName) (t : Table) (h : tn' ≠ tn) :
    (db.setTbl tn t).tbl tn' = db.tbl tn' := by
  cases tn <;> cases tn' <;> first | rfl | exact absurd rfl h

@[simp] theorem audit_addAudit (db : DB) (e : AuditEntry) :
    (db.addAudit e).audit = db.audit ++ [e] := rfl

@[simp] theorem tbl_addAudit (db : DB) (e : AuditEntry) (tn : TName) :
    (db.addAudit e).tbl tn = db.tbl tn := by
  cases tn <;> rfl

@[simp] theorem setRow_nil (rid : Nat) (g : Row → Row) :
    setRow [] rid g = [] := rfl

theorem setRow_cons (a : Nat × Row) (rows : List (Nat × Row)) (rid : Nat)
    (g : Row → Row) :
    setRow (a :: rows) rid g
      = (if a.1 = rid then (a.1, g a.2) else a) :: setRow rows rid g := rfl

/-- The per-row rewrite of an UPDATE keeps the row id. -/
theorem setRowFun_fst (rid : Nat) (g : Row → Row) (ir : Nat × Row) :
    ((if ir.1 = rid then (ir.1, g ir.2) else ir) : Nat × Row).1 = ir.1 := by
  split <;> rfl

/-- An UPDATE whose WHERE clause matches no row changes nothing. -/
theorem setRow_of_no_match (rows : List (Nat × Row)) (rid : Nat)
    (g : Row → Row) (h : ∀ x ∈ rows, x.1 ≠ rid) :
    setRow rows rid g = rows := by
  unfold setRow
  have hcongr : ∀ ir ∈ rows,
      (if ir.1 = rid then (ir.1, g ir.2) else ir) = id ir := by
    intro ir hir
    rw [if_neg (h ir hir)]
    rfl
  rw [List.map_congr_left hcongr, List.map_id]

/-- Selecting by id after an UPDATE finds the rewritten row. -/
theorem find?_id_setRow (rows : List (Nat × Row)) (rid k : Nat)
    (g : Row → Row) :
    (setRow rows rid g).find? (fun ir => ir.1 = k)
      = (rows.find? (fun ir => ir.1 = k)).map
          (fun ir => if ir.1 = rid then (ir.1, g ir.2) else ir) := by
  induction rows with
  | nil => rfl
  | cons hd tl ih =>
    rw [setRow_cons]
    by_cases hh : hd.1 = k
    · rw [List.find?_cons_of_pos _
          (by by_cases hr : hd.1 = rid <;> simp [hr] <;> omega),
        List.find?_cons_of_pos _ (by simpa using hh), Option.map_some']
    · rw [List.find?_cons_of_neg _
          (by by_cases hr : hd.1 = rid <;> simp [hr] <;> omega),
        List.find?_cons_of_neg _ (by simpa using hh), ih]

/-- Row existence by id is invariant under an UPDATE. -/
theorem any_id_setRow (rows : List (Nat × Row)) (rid k : Nat)
    (g : Row → Row) :
    (setRow rows rid g).any (fun ir => ir.1 = k)
      = rows.any (fun ir => ir.1 = k) := by
  induction rows with
  | nil => rfl
  | cons hd tl ih =>
    rw [setRow_cons, List.any_cons, List.any_cons, ih, setRowFun_fst]

/-- Well-formedness of a table: unique row ids, all below the
AUTOINCREMENT counter. -/
def Table.WF (t : Table) : Prop :=
  (t.rows.map Prod.fst).Nodup ∧ ∀ ir ∈ t.rows, ir.1 < t.nextId

instance (t : Table) : Decidable t.WF := by
  unfold Table.WF; infer_instance

/-! ## Concrete fixtures used by witnesses -/

/-- A freshly initialized empty database. -/
def emptyDB : DB := ⟨⟨[], 1⟩, ⟨[], 1⟩, ⟨[], 1⟩, []⟩

/-- A dispatched-category row: active, named `X`, visa expiring
2024-10-01, `備考` NULL. -/
def wRow : Row :=
  { fields := [("現在", some "在職中"), ("氏名", some "X"),
               ("ビザ期限", some "2024-10-01"), ("備考", none)],
    deleted_at := none,
    updated_at := "t0" }

/-- A database holding `wRow` as genzai row id 1. -/
def wDB : DB := ⟨⟨[(1, wRow)], 2⟩, ⟨[], 1⟩, ⟨[], 1⟩, []⟩

/-! ## Claim C4 -/

/-- C4: for every category, `add_employee` called with a field map
containing no recognized columns fails (the built INSERT has an empty
column list, a SQL syntax error) and inserts no row — the state is
returned unchanged. -/
theorem C4_add_no_recognized_fields (db : DB) (tn : TName)
    (data : List (String × PyVal)) (now : String)
    (h : ∀ kv ∈ data, kv.1 ∉ tableCols tn) :
    add_employee db tn data now = (db, .error .syntaxError) := by
  have hv : validFields tn data = [] := by
    unfold validFields
    rw [List.filter_eq_nil_iff.mpr, List.map_nil]
    intro kv hkv
    simpa using h kv hkv
  unfold add_employee
  rw [hv]
  rfl

/-- C4 witness at a concrete input. -/
theorem C4_witness :
    add_employee emptyDB .genzai [("bogus", PyVal.str "x")] "t"
      = (emptyDB, .error .syntaxError) :=
  C4_add_no_recognized_fields emptyDB .genzai [("bogus", PyVal.str "x")] "t"
    (by decide)

/-! ## Claim C5 -/

/-- C5 counterexample: the literal floating-point zero is NOT normalized
to NULL on numeric or plain-text columns — `str(0.0)` is `"0.0"`, which
escapes the sentinel set, and the numeric branch then stores `"0"`. -/
theorem C5_counterexample :
    clean "時給" (PyVal.float 0) = some "0" ∧
    clean "氏名" (PyVal.float 0) = some "0.0" := by
  exact ⟨rfl, rfl⟩

/-- C5 as amended: for every column, `None`/NaN input, any
whitespace-only string, every sentinel string, and the literal INTEGER
zero normalize to NULL; the literal floating-point zero normalizes to
NULL on date columns only, and is stored as `"0"` on numeric columns
and as `"0.0"` on plain-text columns. -/
theorem C5_amended_null_policy (c : String) :
    clean c PyVal.pynone = none ∧
    clean c PyVal.nan = none ∧
    (∀ s : String, pyStrip s = "" → clean c (PyVal.str s) = none) ∧
    (∀ s ∈ sentinelStrs, clean c (PyVal.str s) = none) ∧
    clean c (PyVal.int 0) = none ∧
    (c ∈ dateCols → clean c (PyVal.float 0) = none) ∧
    (c ∈ numericCols → clean c (PyVal.float 0) = some "0") ∧
    (c ∉ dateCols → c ∉ numericCols → clean c (PyVal.float 0) = some "0.0") := by
  have hsv0 : sentinelStrs.contains (pyStrip (pyStr (PyVal.float 0))) = false := by
    decide
  have hne0 : ¬ (PyVal.float 0 = PyVal.pynone ∨ PyVal.float 0 = PyVal.nan) := by
    decide
  refine ⟨rfl, rfl, ?_, ?_, rfl, ?_, ?_, ?_⟩
  · intro s hs
    have hstr : pyStrip (pyStr (PyVal.str s)) = "" := hs
    have hns : ¬ (PyVal.str s = PyVal.pynone ∨ PyVal.str s = PyVal.nan) := by
      rintro (h | h) <;> cases h
    simp only [clean, if_neg hns, hstr]
    rfl
  · intro s hs
    fin_cases hs <;> rfl
  · intro hc
    have h1 : dateCols.contains c = true := by simpa using hc
    simp only [clean, if_neg hne0, hsv0, Bool.false_eq_true, if_false, h1, if_true]
    rfl
  · intro hc
    have hd : c ∉ dateCols := by
      have h : ∀ x ∈ numericCols, x ∉ dateCols := by decide
      exact h c hc
    have h1 : dateCols.contains c = false := by simpa using hd
    have h2 : numericCols.contains c = true := by simpa using hc
    simp only [clean, if_neg hne0, hsv0, Bool.false_eq_true, if_false, h1, h2,
      if_true]
    rfl
  · intro hd hn
    have h1 : dateCols.contains c = false := by simpa using hd
    have h2 : numericCols.contains c = false := by simpa using hn
    simp only [clean, if_neg hne0, hsv0, Bool.false_eq_true, if_false, h1, h2]
    rfl

/-- C5 witness at concrete inputs. -/
theorem C5_witness :
    clean "生年月日" (PyVal.float 0) = none ∧
    clean "時給" (PyVal.float 0) = some "0" ∧
    clean "時給" (PyVal.str "  ") = none := by
  obtain ⟨_, _, hblank, _, _, hdate, hnum, _⟩ :=
    C5_amended_null_policy "生年月日"
  obtain ⟨_, _, hblank2, _, _, _, hnum2, _⟩ :=
    C5_amended_null_policy "時給"
  exact ⟨hdate (by decide), hnum2 (by decide), hblank2 "  " (by decide)⟩

/-! ## Claim C6 -/

/-- C6 counterexample: the Excel serial 2958465 (9999-12-31, a valid
spreadsheet date) exceeds the pandas timestamp range, so the code falls
through to string parsing and normalizes it to NULL rather than to
1899-12-30 plus 2958465 days. -/
theorem C6_counterexample :
    excel_date_to_iso (PyVal.int 2958465) = none ∧
    isoOfDays (excelEpochDay + 2958465) = "9999-12-31" := by
  exact ⟨rfl, rfl⟩

/-- C6 as amended: a nonzero numeric day-count serial normalizes to the
ISO string of 1899-12-30 plus that many days provided the day offset and
the resulting timestamp fit the engine's signed 64-bit-nanosecond range;
a serial outside that range instead falls through to parsing
`str(value)` as a date string, which yields a date for 8-digit
YYYYMMDD-shaped integers (19991231 parses as 1999-12-31) and NULL for
other numbers (2958465); a structured date/timestamp normalizes to its
ISO date (NaT to NULL); a string that is not a float literal normalizes
to its parsed ISO date when parseable and to NULL otherwise; `None` and
NaN normalize to NULL. -/
theorem C6_amended_date_normalization :
    (∀ n : Int, n ≠ 0 → serialInBounds (n : ℚ) →
      excel_date_to_iso (PyVal.int n) = some (isoOfDays (excelEpochDay + n))) ∧
    (∀ q : ℚ, q ≠ 0 → serialInBounds q →
      excel_date_to_iso (PyVal.float q)
        = some (isoOfDays (excelEpochDay + ratFloor q))) ∧
    (∀ n : Int, n ≠ 0 → ¬ serialInBounds (n : ℚ) →
      excel_date_to_iso (PyVal.int n)
        = (pdParseDate (toString n)).map isoOfDays) ∧
    (∀ d : Int, excel_date_to_iso (PyVal.date d) = some (isoOfDays d)) ∧
    excel_date_to_iso PyVal.nat = none ∧
    excel_date_to_iso PyVal.pynone = none ∧
    excel_date_to_iso PyVal.nan = none ∧
    (∀ s : String, ∀ z : Int, pyParseFloat s = .err → pdParseDate s = some z →
      excel_date_to_iso (PyVal.str s) = some (isoOfDays z)) ∧
    (∀ s : String, pyParseFloat s = .err → pdParseDate s = none →
      excel_date_to_iso (PyVal.str s) = none) := by
  have hfloor : ∀ n : Int, ratFloor (n : ℚ) = n := by
    intro n
    show Int.fdiv (n : ℚ).num ((n : ℚ).den : Int) = n
    rw [Rat.intCast_num, Rat.intCast_den]
    exact Int.fdiv_one n
  refine ⟨?_, ?_, ?_, fun d => rfl, rfl, rfl, rfl, ?_, ?_⟩
  · intro n hn hb
    have h0 : excel_date_to_iso (PyVal.int n)
        = if (n : ℚ) = 0 then none
          else if serialInBounds (n : ℚ) then
            some (isoOfDays (excelEpochDay + ratFloor (n : ℚ)))
          else excelDateFallback (PyVal.int n) := rfl
    rw [h0, if_neg (by exact_mod_cast hn), if_pos hb, hfloor]
  · intro q hq hb
    have h0 : excel_date_to_iso (PyVal.float q)
        = if q = 0 then none
          else if serialInBounds q then
            some (isoOfDays (excelEpochDay + ratFloor q))
          else excelDateFallback (PyVal.float q) := rfl
    rw [h0, if_neg hq, if_pos hb]
  · intro n hn hb
    have h0 : excel_date_to_iso (PyVal.int n)
        = if (n : ℚ) = 0 then none
          else if serialInBounds (n : ℚ) then
            some (isoOfDays (excelEpochDay + ratFloor (n : ℚ)))
          else excelDateFallback (PyVal.int n) := rfl
    rw [h0, if_neg (by exact_mod_cast hn), if_neg hb]
    show excelDateFallback (PyVal.int n) = _
    unfold excelDateFallback
    have hstr : pyStr (PyVal.int n) = toString n := rfl
    rw [hstr]
    cases hp : pdParseDate (toString n) <;> rfl
  · intro s z hf hp
    have h0 : excel_date_to_iso (PyVal.str s)
        = match pyParseFloat s with
          | .val q =>
            if q = 0 then none
            else if serialInBounds q then
              some (isoOfDays (excelEpochDay + ratFloor q))
            else excelDateFallback (PyVal.str s)
          | .nanv => excelDateFallback (PyVal.str s)
          | .err => excelDateFallback (PyVal.str s) := rfl
    rw [h0, hf]
    show excelDateFallback (PyVal.str s) = some (isoOfDays z)
    unfold excelDateFallback
    have : pyStr (PyVal.str s) = s := rfl
    rw [this, hp]
  · intro s hf hp
    have h0 : excel_date_to_iso (PyVal.str s)
        = match pyParseFloat s with
          | .val q =>
            if q = 0 then none
            else if serialInBounds q then
              some (isoOfDays (excelEpochDay + ratFloor q))
            else excelDateFallback (PyVal.str s)
          | .nanv => excelDateFallback (PyVal.str s)
          | .err => excelDateFallback (PyVal.str s) := rfl
    rw [h0, hf]
    show excelDateFallback (PyVal.str s) = none
    unfold excelDateFallback
    have : pyStr (PyVal.str s) = s := rfl
    rw [this, hp]

/-! ## Per-operation state lemmas -/

theorem tbl_after_delete (db : DB) (tn : TName) (rid : Nat) (now : String) :
    (delete_employee db tn rid now).1.tbl tn
      = { db.tbl tn with
          rows := setRow (db.tbl tn).rows rid
            (fun r => { r with deleted_at := some now }) } := by
  simp [delete_employee]

theorem ret_delete (db : DB) (tn : TName) (rid : Nat) (now : String) :
    (delete_employee db tn rid now).2
      = (db.tbl tn).rows.any (fun ir => ir.1 = rid) := rfl

theorem tbl_after_restore (db : DB) (tn : TName) (rid : Nat) (now : String) :
    (restore_employee db tn rid now).1.tbl tn
      = { db.tbl tn with
          rows := setRow (db.tbl tn).rows rid
            (fun r => { r with deleted_at := none, updated_at := now }) } := by
  simp [restore_employee]

theorem ret_restore (db : DB) (tn : TName) (rid : Nat) (now : String) :
    (restore_employee db tn rid now).2
      = (db.tbl tn).rows.any (fun ir => ir.1 = rid) := rfl

theorem tbl_after_hard_delete (db : DB) (tn : TName) (rid : Nat)
    (now : String) :
    (hard_delete_employee db tn rid now).1.tbl tn
      = { db.tbl tn with
          rows := (db.tbl tn).rows.filter
            (fun ir => !(ir.1 = rid : Bool)) } := by
  simp [hard_delete_employee]

theorem ret_hard_delete (db : DB) (tn : TName) (rid : Nat) (now : String) :
    (hard_delete_employee db tn rid now).2
      = (db.tbl tn).rows.any (fun ir => ir.1 = rid) := rfl

theorem tbl_after_update (db : DB) (tn : TName) (rid : Nat)
    (data : List (String × PyVal)) (now : String)
    (h : (validFields tn data).isEmpty = false) :
    (update_employee db tn rid data now).1.tbl tn
      = { db.tbl tn with
          rows := applyUpdate (db.tbl tn).rows rid
            (validFields tn data) now } := by
  by_cases hd : (updateDiff (get_employee db tn rid)
      (validFields tn data)).isEmpty
  · simp [update_employee, h, hd]
  · simp [update_employee, h, hd]

/-! ## Claim C1 -/

/-- C1 counterexample: soft-deleting a nonexistent id reports failure
(returns `False`) yet still appends one audit entry — the audit insert
is unconditional. -/
theorem C1_counterexample :
    (delete_employee emptyDB .genzai 1 "ts").2 = false ∧
    (delete_employee emptyDB .genzai 1 "ts").1.audit.length
      = emptyDB.audit.length + 1 := by
  decide

/-- C1 as amended: `delete`/`restore`/`hardDelete` append exactly one
audit entry unconditionally — also when they report failure because the
id does not exist (the return value is exactly "some row was hit") —
while `update` with no recognized fields fails without touching
anything, a successful `update` appends one entry exactly when the
diff is non-empty, and a successful `add` appends exactly one entry;
each operation performs its row change and audit insert in one atomic
transition. -/
theorem C1_amended_audit_discipline (db : DB) (tn : TName) (rid : Nat)
    (now : String) :
    ((delete_employee db tn rid now).1.audit.length = db.audit.length + 1) ∧
    ((delete_employee db tn rid now).2
      = (db.tbl tn).rows.any (fun ir => ir.1 = rid)) ∧
    ((restore_employee db tn rid now).1.audit.length = db.audit.length + 1) ∧
    ((restore_employee db tn rid now).2
      = (db.tbl tn).rows.any (fun ir => ir.1 = rid)) ∧
    ((hard_delete_employee db tn rid now).1.audit.length
      = db.audit.length + 1) ∧
    ((hard_delete_employee db tn rid now).2
      = (db.tbl tn).rows.any (fun ir => ir.1 = rid)) ∧
    (∀ data : List (String × PyVal), (∀ kv ∈ data, kv.1 ∉ tableCols tn) →
      update_employee db tn rid data now = (db, false)) ∧
    (∀ data : List (String × PyVal), validFields tn data ≠ [] →
      (update_employee db tn rid data now).2 = true ∧
      (update_employee db tn rid data now).1.audit.length
        = db.audit.length +
          (if updateDiff (get_employee db tn rid) (validFields tn data) = []
           then 0 else 1)) ∧
    (∀ data : List (String × PyVal), validFields tn data ≠ [] →
      (add_employee db tn data now).2 = Except.ok (db.tbl tn).nextId ∧
      (add_employee db tn data now).1.audit.length = db.audit.length + 1) := by
  refine ⟨?_, rfl, ?_, rfl, ?_, rfl, ?_, ?_, ?_⟩
  · simp [delete_employee]
  · simp [restore_employee]
  · simp [hard_delete_employee]
  · intro data h
    have hv : validFields tn data = [] := by
      unfold validFields
      rw [List.filter_eq_nil_iff.mpr, List.map_nil]
      intro kv hkv
      simpa using h kv hkv
    simp [update_employee, hv]
  · intro data h
    have h1 : (validFields tn data).isEmpty = false := by
      simpa [List.isEmpty_iff] using h
    refine ⟨by simp [update_employee, h1], ?_⟩
    by_cases hd :
        updateDiff (get_employee db tn rid) (validFields tn data) = []
    · simp [update_employee, h1, hd]
    · have h2 : (updateDiff (get_employee db tn rid)
          (validFields tn data)).isEmpty = false := by
        simpa [List.isEmpty_iff] using hd
      simp [update_employee, h1, hd, h2]
  · intro data h
    have h1 : (validFields tn data).isEmpty = false := by
      simpa [List.isEmpty_iff] using h
    exact ⟨by simp [add_employee, h1], by simp [add_employee, h1]⟩

/-- C1 witness at concrete inputs. -/
theorem C1_witness :
    (delete_employee wDB .genzai 1 "ts").1.audit.length
      = wDB.audit.length + 1 ∧
    update_employee wDB .genzai 1 [("bogus", PyVal.str "x")] "ts"
      = (wDB, false) ∧
    (add_employee wDB .genzai [("氏名", PyVal.str "B")] "ts").1.audit.length
      = wDB.audit.length + 1 := by
  obtain ⟨h1, _, _, _, _, _, h7, _, h9⟩ :=
    C1_amended_audit_discipline wDB .genzai 1 "ts"
  exact ⟨h1, h7 _ (by decide), (h9 _ (by decide)).2⟩

/-! ## Claim C2 -/

/-- C2 counterexample: resubmitting NULL for a field whose stored value
is NULL is a no-op under the claim's equality (normalized-null treated
as empty string on both sides), yet the code compares `str(None)` (that
is `"None"`) against `""`, registers a change, and appends one Update
audit entry. -/
theorem C2_counterexample :
    wRow.get "備考" = none ∧
    clean "備考" PyVal.pynone = none ∧
    (update_employee wDB .genzai 1 [("備考", PyVal.pynone)] "t1").2 = true ∧
    (update_employee wDB .genzai 1 [("備考", PyVal.pynone)] "t1").1.audit.length
      = wDB.audit.length + 1 := by
  decide

/-- C2 as amended: an update resubmitting, for an existing record, only
recognized fields whose normalized values are non-NULL and equal (string
comparison) to the currently stored values returns success and appends
no audit entry; resubmitting NULL for a NULL-stored field, by contrast,
is counted as a change (`"None"` vs `""`) and appends one Update entry. -/
theorem C2_amended_noop_update (db : DB) (tn : TName) (rid : Nat)
    (data : List (String × PyVal)) (now : String) (r : Row)
    (hr : get_employee db tn rid = some r)
    (hne : validFields tn data ≠ [])
    (heq : ∀ kv ∈ validFields tn data, kv.2 ≠ none ∧ r.get kv.1 = kv.2) :
    (update_employee db tn rid data now).2 = true ∧
    (update_employee db tn rid data now).1.audit = db.audit := by
  have hd : updateDiff (get_employee db tn rid) (validFields tn data) = [] := by
    rw [hr]
    apply List.filter_eq_nil_iff.mpr
    intro kv hkv
    obtain ⟨hnn, hs⟩ := heq kv hkv
    match hv : kv.2 with
    | none => exact absurd hv hnn
    | some s =>
      rw [hv] at hs
      simp [strOfOld, strOfNew, hs, pyStrOfStored]
  have h1 : (validFields tn data).isEmpty = false := by
    simpa [List.isEmpty_iff] using hne
  exact ⟨by simp [update_employee, h1], by simp [update_employee, h1, hd]⟩

/-- C2 witness at a concrete input. -/
theorem C2_witness :
    (update_employee wDB .genzai 1 [("氏名", PyVal.str "X")] "t1").2 = true ∧
    (update_employee wDB .genzai 1 [("氏名", PyVal.str "X")] "t1").1.audit
      = wDB.audit :=
  C2_amended_noop_update wDB .genzai 1 [("氏名", PyVal.str "X")] "t1" wRow
    (by decide) (by decide) (by decide)

/-! ## Claim C3 -/

/-- C3 counterexample: updating an id that does not exist returns
`True`, not a failure result — `update_employee` never inspects the
UPDATE rowcount. -/
theorem C3_counterexample :
    get_employee emptyDB .genzai 1 = none ∧
    (update_employee emptyDB .genzai 1 [("氏名", PyVal.str "X")] "t").2
      = true := by
  decide

/-- C3 as amended: updating an id that is not present in the table with
at least one recognized field returns `True` (success, not a failure
result) while modifying no row of any table; it never crashes. -/
theorem C3_amended_update_missing_id (db : DB) (tn : TName) (rid : Nat)
    (data : List (String × PyVal)) (now : String)
    (hmiss : get_employee db tn rid = none)
    (hrec : validFields tn data ≠ []) :
    (update_employee db tn rid data now).2 = true ∧
    (∀ tn', ((update_employee db tn rid data now).1.tbl tn').rows
      = (db.tbl tn').rows) := by
  have h1 : (validFields tn data).isEmpty = false := by
    simpa [List.isEmpty_iff] using hrec
  have hnor : ∀ x ∈ (db.tbl tn).rows, ¬ (x.1 = rid) := by
    intro x hx h
    have hf : (db.tbl tn).rows.find? (fun ir => ir.1 = rid) = none := by
      have := hmiss
      unfold get_employee Table.findRow at this
      exact Option.map_eq_none'.mp this
    have := List.find?_eq_none.mp hf x hx
    simp [h] at this
  have happ : applyUpdate (db.tbl tn).rows rid (validFields tn data) now
      = (db.tbl tn).rows := by
    unfold applyUpdate
    exact setRow_of_no_match _ _ _ hnor
  refine ⟨by simp [update_employee, h1], ?_⟩
  intro tn'
  by_cases htn : tn' = tn
  · subst htn
    by_cases hd : (updateDiff (get_employee db tn' rid)
        (validFields tn' data)).isEmpty
    · simp [update_employee, h1, hd, happ]
    · simp [update_employee, h1, hd, happ]
  · by_cases hd : (updateDiff (get_employee db tn rid)
        (validFields tn data)).isEmpty
    · simp [update_employee, h1, hd, tbl_setTbl_other _ _ _ _ htn]
    · simp [update_employee, h1, hd, tbl_setTbl_other _ _ _ _ htn]

/-- C3 witness at a concrete input. -/
theorem C3_witness :
    (update_employee emptyDB .ukeoi 7 [("備考", PyVal.str "memo")] "t").2
      = true ∧
    ((update_employee emptyDB .ukeoi 7 [("備考", PyVal.str "memo")] "t").1.tbl
      .ukeoi).rows = (emptyDB.tbl .ukeoi).rows := by
  obtain ⟨ha, hb⟩ :=
    C3_amended_update_missing_id emptyDB .ukeoi 7 [("備考", PyVal.str "memo")]
      "t" (by decide) (by decide)
  exact ⟨ha, hb .ukeoi⟩

/-- C6 witness at concrete inputs: an in-range serial, an out-of-range
8-digit serial that the fallback parses as YYYYMMDD, an ISO string, a
`dtype=str`-shaped date-with-time string, a two-digit-year string, and
an unparseable string. -/
theorem C6_witness :
    excel_date_to_iso (PyVal.int 1) = some "1899-12-31" ∧
    excel_date_to_iso (PyVal.int 19991231) = some "1999-12-31" ∧
    excel_date_to_iso (PyVal.str "2024-01-05") = some "2024-01-05" ∧
    excel_date_to_iso (PyVal.str "1999-12-31 00:00:00")
      = some "1999-12-31" ∧
    excel_date_to_iso (PyVal.str "99-12-31") = some "1999-12-31" ∧
    excel_date_to_iso (PyVal.str "hello") = none := by
  obtain ⟨hser, _, hfall, _, _, _, _, hps, hpn⟩ :=
    C6_amended_date_normalization
  refine ⟨?_, ?_, ?_, ?_, ?_, ?_⟩
  · exact (hser 1 (by decide) (by decide)).trans (by decide)
  · exact (hfall 19991231 (by decide) (by decide)).trans (by decide)
  · exact (hps "2024-01-05" (daysFromCivil 2024 1 5) (by decide)
      (by decide)).trans (by decide)
  · exact (hps "1999-12-31 00:00:00" (daysFromCivil 1999 12 31) (by decide)
      (by decide)).trans (by decide)
  · exact (hps "99-12-31" (daysFromCivil 1999 12 31) (by decide)
      (by decide)).trans (by decide)
  · exact hpn "hello" (by decide) (by decide)

/-! ## Claim C7 -/

/-- C7: soft-delete hides a record from the default `get_all` while
`get_deleted` still lists it; a subsequent restore makes `get_all` list
it again; a hard delete then makes `get_employee` return not-found, and
it stays not-found under any further update/delete/restore, while `add`
can never hand the removed id out again (AUTOINCREMENT ids are below
`nextId` and never reused). -/
theorem C7_lifecycle (db : DB) (tn : TName) (rid : Nat) (r : Row)
    (n1 n2 n3 : String)
    (hwf : ∀ ir ∈ (db.tbl tn).rows, ir.1 < (db.tbl tn).nextId)
    (hr : get_employee db tn rid = some r)
    (db1 : DB) (b1 : Bool) (h1 : delete_employee db tn rid n1 = (db1, b1))
    (db2 : DB) (b2 : Bool) (h2 : restore_employee db1 tn rid n2 = (db2, b2))
    (db3 : DB) (b3 : Bool)
    (h3 : hard_delete_employee db2 tn rid n3 = (db3, b3)) :
    b1 = true ∧
    (∀ x ∈ get_all db1 tn false false, x.1 ≠ rid) ∧
    (∃ x ∈ get_deleted db1 tn, x.1 = rid) ∧
    b2 = true ∧
    (∃ x ∈ get_all db2 tn false false, x.1 = rid) ∧
    b3 = true ∧
    get_employee db3 tn rid = none ∧
    (∀ data now4,
      get_employee (update_employee db3 tn rid data now4).1 tn rid = none) ∧
    (∀ now4, get_employee (delete_employee db3 tn rid now4).1 tn rid = none) ∧
    (∀ now4,
      get_employee (restore_employee db3 tn rid now4).1 tn rid = none) ∧
    (∀ data now4, (add_employee db3 tn data now4).2 ≠ Except.ok rid) := by
  -- the row found for `rid`
  have hfind : ∃ pr ∈ (db.tbl tn).rows, pr.1 = rid ∧ pr.2 = r := by
    unfold get_employee Table.findRow at hr
    cases hf : (db.tbl tn).rows.find? (fun ir => ir.1 = rid) with
    | none => rw [hf] at hr; cases hr
    | some pr =>
      rw [hf] at hr
      exact ⟨pr, List.mem_of_find?_eq_some hf,
        by simpa using List.find?_some hf, by simpa using hr⟩
  obtain ⟨pr, hmem, hpr1, hpr2⟩ := hfind
  have e1 : db1 = (delete_employee db tn rid n1).1 := by rw [h1]
  have e1b : b1 = (delete_employee db tn rid n1).2 := by rw [h1]
  have e2 : db2 = (restore_employee db1 tn rid n2).1 := by rw [h2]
  have e2b : b2 = (restore_employee db1 tn rid n2).2 := by rw [h2]
  have e3 : db3 = (hard_delete_employee db2 tn rid n3).1 := by rw [h3]
  have e3b : b3 = (hard_delete_employee db2 tn rid n3).2 := by rw [h3]
  have hany : (db.tbl tn).rows.any (fun ir => ir.1 = rid) = true :=
    List.any_eq_true.mpr ⟨pr, hmem, by simp [hpr1]⟩
  -- table contents after each step
  have ht1 : (db1.tbl tn).rows
      = setRow (db.tbl tn).rows rid
          (fun q => { q with deleted_at := some n1 }) := by
    rw [e1, tbl_after_delete]
  have ht1n : (db1.tbl tn).nextId = (db.tbl tn).nextId := by
    rw [e1, tbl_after_delete]
  have ht2 : (db2.tbl tn).rows
      = setRow (db1.tbl tn).rows rid
          (fun q => { q with deleted_at := none, updated_at := n2 }) := by
    rw [e2, tbl_after_restore]
  have ht2n : (db2.tbl tn).nextId = (db1.tbl tn).nextId := by
    rw [e2, tbl_after_restore]
  have ht3 : (db3.tbl tn).rows
      = (db2.tbl tn).rows.filter (fun ir => !(ir.1 = rid : Bool)) := by
    rw [e3, tbl_after_hard_delete]
  have ht3n : (db3.tbl tn).nextId = (db2.tbl tn).nextId := by
    rw [e3, tbl_after_hard_delete]
  -- no rid row survives the hard delete
  have hultimate : ∀ x ∈ (db3.tbl tn).rows, ¬ (x.1 = rid) := by
    intro x hx
    rw [ht3] at hx
    have := (List.mem_filter.mp hx).2
    simpa using this
  have hfind3 : (db3.tbl tn).rows.find? (fun ir => ir.1 = rid) = none :=
    List.find?_eq_none.mpr (fun x hx => by simpa using hultimate x hx)
  refine ⟨?_, ?_, ?_, ?_, ?_, ?_, ?_, ?_, ?_, ?_, ?_⟩
  · rw [e1b, ret_delete, hany]
  · -- default get_all after soft delete excludes the record
    intro x hx hxrid
    have hx' := hx
    unfold get_all at hx'
    rw [ht1] at hx'
    obtain ⟨hxmem, hxcond⟩ := List.mem_filter.mp hx'
    obtain ⟨ir, hir, hirx⟩ := List.mem_map.mp hxmem
    by_cases hid : ir.1 = rid
    · rw [if_pos hid] at hirx
      rw [← hirx] at hxcond
      simp at hxcond
    · rw [if_neg hid] at hirx
      rw [← hirx] at hxrid
      exact hid hxrid
  · -- get_deleted after soft delete includes the record
    refine ⟨(rid, { pr.2 with deleted_at := some n1 }), ?_, rfl⟩
    unfold get_deleted
    rw [List.mem_insertionSort, ht1]
    refine List.mem_filter.mpr ⟨?_, by simp⟩
    exact List.mem_map.mpr ⟨pr, hmem, by rw [if_pos hpr1, hpr1]⟩
  · rw [e2b, ret_restore, ht1, any_id_setRow, hany]
  · -- get_all after restore includes the record again
    refine ⟨(rid, { pr.2 with deleted_at := none, updated_at := n2 }), ?_, rfl⟩
    unfold get_all
    rw [ht2, ht1]
    refine List.mem_filter.mpr ⟨?_, by simp⟩
    refine List.mem_map.mpr
      ⟨(rid, { pr.2 with deleted_at := some n1 }), ?_, by rw [if_pos rfl]⟩
    exact List.mem_map.mpr ⟨pr, hmem, by rw [if_pos hpr1, hpr1]⟩
  · rw [e3b, ret_hard_delete, ht2, ht1, any_id_setRow, any_id_setRow, hany]
  · unfold get_employee Table.findRow
    rw [hfind3]
    rfl
  · -- update cannot resurrect the id
    intro data now4
    unfold get_employee Table.findRow
    by_cases hv : (validFields tn data).isEmpty = true
    · have : (update_employee db3 tn rid data now4).1 = db3 := by
        unfold update_employee
        rw [if_pos hv]
      rw [this, hfind3]
      rfl
    · rw [tbl_after_update db3 tn rid data now4 (by simpa using hv)]
      show ((applyUpdate (db3.tbl tn).rows rid (validFields tn data)
        now4).find? (fun ir => ir.1 = rid)).map (fun p => p.2) = none
      unfold applyUpdate
      rw [find?_id_setRow, hfind3]
      rfl
  · intro now4
    unfold get_employee Table.findRow
    rw [tbl_after_delete]
    simp only [find?_id_setRow, hfind3, Option.map_none']
  · intro now4
    unfold get_employee Table.findRow
    rw [tbl_after_restore]
    simp only [find?_id_setRow, hfind3, Option.map_none']
  · -- AUTOINCREMENT never reuses the removed id
    intro data now4
    by_cases hv : (validFields tn data).isEmpty = true
    · have : (add_employee db3 tn data now4).2 = .error .syntaxError := by
        unfold add_employee
        rw [if_pos hv]
      rw [this]
      intro hcontra
      cases hcontra
    · have : (add_employee db3 tn data now4).2 = .ok (db3.tbl tn).nextId := by
        unfold add_employee
        rw [if_neg (by simp [hv])]
      rw [this]
      intro hcontra
      have hlt : rid < (db.tbl tn).nextId := by
        have := hwf pr hmem
        rwa [hpr1] at this
      have hn3 : (db3.tbl tn).nextId = (db.tbl tn).nextId := by
        rw [ht3n, ht2n, ht1n]
      cases hcontra
      omega

/-! ## Importer lemmas -/

/-- The non-staff fix-ups never raise. -/
theorem processSheet_genzai (s : Sheet) :
    processSheet .genzai s = some (dropAlertCol s) := rfl

theorem processSheet_ukeoi (s : Sheet) :
    processSheet .ukeoi s = some (dropAlertCol s) := rfl

/-- The staff fix-up succeeds exactly when the sheet has a column. -/
theorem processSheet_staff_succeeds (s : Sheet) (h : s.cols ≠ []) :
    ∃ ps, processSheet .staff s = some ps := by
  apply Option.isSome_iff_exists.mp
  match hc : s.cols with
  | [] => exact absurd hc h
  | hd :: rest =>
    by_cases hh : hd = "現在" <;> simp [processSheet, remapStaff, hc, hh]

/-- What a present staff sheet must satisfy for the import not to raise. -/
def staffColsOk : Option Sheet → Prop
  | none => True
  | some s => s.cols ≠ []

instance : (o : Option Sheet) → Decidable (staffColsOk o)
  | none => isTrue trivial
  | some s => inferInstanceAs (Decidable (s.cols ≠ []))

theorem importStep_genzai_succeeds (db : DB) (o : Option Sheet)
    (now : String) : ∃ r, importStep db .genzai o now = some r := by
  cases o with
  | none => exact ⟨(db, 0), rfl⟩
  | some s =>
    apply Option.isSome_iff_exists.mp
    simp [importStep, processSheet_genzai]

theorem importStep_ukeoi_succeeds (db : DB) (o : Option Sheet)
    (now : String) : ∃ r, importStep db .ukeoi o now = some r := by
  cases o with
  | none => exact ⟨(db, 0), rfl⟩
  | some s =>
    apply Option.isSome_iff_exists.mp
    simp [importStep, processSheet_ukeoi]

theorem importStep_staff_succeeds (db : DB) (o : Option Sheet)
    (now : String) (hok : staffColsOk o) :
    ∃ r, importStep db .staff o now = some r := by
  cases o with
  | none => exact ⟨(db, 0), rfl⟩
  | some s =>
    obtain ⟨ps, hps⟩ := processSheet_staff_succeeds s hok
    apply Option.isSome_iff_exists.mp
    simp [importStep, hps]

theorem importStep_none_inv (db db' : DB) (tn : TName) (now : String)
    (c : Nat) (hstep : importStep db tn none now = some (db', c)) :
    db' = db ∧ c = 0 := by
  simp only [importStep, Option.some.injEq, Prod.mk.injEq] at hstep
  exact ⟨hstep.1.symm, hstep.2.symm⟩

/-- A successful step leaves every other category's table alone. -/
theorem importStep_preserves (db db' : DB) (tn tn' : TName)
    (o : Option Sheet) (now : String) (c : Nat) (h : tn' ≠ tn)
    (hstep : importStep db tn o now = some (db', c)) :
    db'.tbl tn' = db.tbl tn' := by
  cases o with
  | none =>
    rw [(importStep_none_inv db db' tn now c hstep).1]
  | some s =>
    cases hps : processSheet tn s with
    | none => rw [importStep, hps] at hstep; cases hstep
    | some ps =>
      rw [importStep, hps] at hstep
      simp only [Option.some.injEq, Prod.mk.injEq] at hstep
      rw [← hstep.1, tbl_setTbl_other _ _ _ _ h]

/-- A successful step on a readable sheet rebuilds its own table from
scratch and reports the surviving-row count. -/
theorem importStep_tbl_self (db db' : DB) (tn : TName) (s ps : Sheet)
    (now : String) (c : Nat) (hps : processSheet tn s = some ps)
    (hstep : importStep db tn (some s) now = some (db', c)) :
    db'.tbl tn
      = { rows := (insertedVals tn ps).enum.map
            (fun iv => ((db.tbl tn).nextId + iv.1, mkImportRow tn iv.2 now)),
          nextId := (db.tbl tn).nextId + (insertedVals tn ps).length } ∧
    c = (insertedVals tn ps).length := by
  rw [importStep, hps] at hstep
  simp only [Option.some.injEq, Prod.mk.injEq] at hstep
  exact ⟨by rw [← hstep.1, tbl_setTbl_self], hstep.2.symm⟩

/-- When the staff sheet cannot crash the fix-up, the import runs to
completion: three successful steps, one IMPORT audit entry, and the
counts list is returned. -/
theorem import_run (db : DB) (wb : TName → Option Sheet) (now : String)
    (hok : staffColsOk (wb .staff)) :
    ∃ db1 c1 db2 c2 db3 c3,
      importStep db .genzai (wb .genzai) now = some (db1, c1) ∧
      importStep db1 .ukeoi (wb .ukeoi) now = some (db2, c2) ∧
      importStep db2 .staff (wb .staff) now = some (db3, c3) ∧
      import_from_excel db wb now
        = (db3.addAudit
            { table_name := "*", row_id := none, action := "IMPORT",
              employee_name := some "system",
              changes := .importP
                [("genzai", c1), ("ukeoi", c2), ("staff", c3)],
              changed_at := now },
           Except.ok [(.genzai, c1), (.ukeoi, c2), (.staff, c3)]) := by
  obtain ⟨⟨db1, c1⟩, h1⟩ := importStep_genzai_succeeds db (wb .genzai) now
  obtain ⟨⟨db2, c2⟩, h2⟩ := importStep_ukeoi_succeeds db1 (wb .ukeoi) now
  obtain ⟨⟨db3, c3⟩, h3⟩ := importStep_staff_succeeds db2 (wb .staff) now hok
  refine ⟨db1, c1, db2, c2, db3, c3, h1, h2, h3, ?_⟩
  simp only [import_from_excel, h1, h2, h3]

/-! ## Claim C9 -/

/-- Every alert produced for one category's table comes from a row that
passed that table's WHERE clause, and carries that row's parsed expiry
and the severity of its signed day distance. -/
theorem tableAlerts_sound (db : DB) (tn : TName) (label : String)
    (today : Int) (cutoff : String) :
    ∀ a ∈ tableAlerts db tn label today cutoff,
      a.table = tn ∧
      ∃ ir ∈ (db.tbl tn).rows,
        ir.1 = a.id ∧ ir.2.deleted_at = none ∧
        (tn = TName.genzai ∨ tn = TName.ukeoi →
          ir.2.get "現在" = some "在職中") ∧
        ∃ v, ir.2.get "ビザ期限" = some v ∧ v ≠ "" ∧ sqlLe v cutoff = true ∧
          ∃ e, strptimeYMD (strTake v 10) = some e ∧
            a.days_left = e - today ∧
            a.alert_level = (severityOf (e - today)).1 ∧
            a.alert_class = (severityOf (e - today)).2 := by
  intro a ha
  unfold tableAlerts at ha
  obtain ⟨ir, hirmem, hmk⟩ := List.mem_filterMap.mp ha
  rw [List.mem_insertionSort] at hirmem
  obtain ⟨hmem, hw⟩ := List.mem_filter.mp hirmem
  unfold visaWhere at hw
  cases hv : ir.2.get "ビザ期限" with
  | none => rw [hv] at hw; simp at hw
  | some v =>
    rw [hv] at hw
    simp only [Bool.and_eq_true, Bool.not_eq_true', beq_eq_false_iff_ne,
      ne_eq, beq_iff_eq] at hw
    obtain ⟨⟨⟨hvne, hvle⟩, hdel⟩, hstat⟩ := hw
    simp only [mkAlert, hv, Option.getD_some] at hmk
    cases hp : strptimeYMD (strTake v 10) with
    | none => rw [hp] at hmk; cases hmk
    | some e =>
      rw [hp] at hmk
      simp only [Option.some.injEq] at hmk
      subst hmk
      refine ⟨rfl, ir, hmem, rfl, hdel, ?_, v, hv, hvne, hvle, e, hp,
        rfl, rfl, rfl⟩
      intro hor
      cases tn with
      | genzai => simpa using hstat
      | ukeoi => simpa using hstat
      | staff => rcases hor with h | h <;> cases h

/-- C9: every alert returned by `get_visa_alerts` belongs to a
non-deleted row (with active status for the two dispatch categories)
whose stored visa-expiry value is non-empty and at most the cutoff
`today + days` (TEXT comparison, which coincides with date order for the
normalizer's ISO dates); its signed `days_left` is the parsed expiry
minus today, its severity follows the ladder `<= 0` expired, `<= 30`
urgent, `<= 60` warning, else upcoming, evaluated in that order; and the
merged result across all three categories is sorted ascending by
`days_left`. -/
theorem C9_visa_alert_soundness (db : DB) (today days : Int) :
    (∀ a ∈ get_visa_alerts db today days,
      ∃ ir ∈ (db.tbl a.table).rows,
        ir.1 = a.id ∧
        ir.2.deleted_at = none ∧
        (a.table = TName.genzai ∨ a.table = TName.ukeoi →
          ir.2.get "現在" = some "在職中") ∧
        ∃ v, ir.2.get "ビザ期限" = some v ∧ v ≠ "" ∧
          sqlLe v (isoOfDays (today + days)) = true ∧
          ∃ e, strptimeYMD (strTake v 10) = some e ∧
            a.days_left = e - today ∧
            a.alert_class =
              (if a.days_left ≤ 0 then "expired"
               else if a.days_left ≤ 30 then "urgent"
               else if a.days_left ≤ 60 then "warning"
               else "upcoming") ∧
            a.alert_level =
              (if a.days_left ≤ 0 then "🔴 期限切れ"
               else if a.days_left ≤ 30 then "🔴 緊急"
               else if a.days_left ≤ 60 then "🟠 警告"
               else "🟡 注意")) ∧
    List.Pairwise (fun x y => x.days_left ≤ y.days_left)
      (get_visa_alerts db today days) := by
  constructor
  · intro a ha
    unfold get_visa_alerts at ha
    rw [List.mem_insertionSort] at ha
    have main : ∀ tn label,
        a ∈ tableAlerts db tn label today (isoOfDays (today + days)) →
        ∃ ir ∈ (db.tbl a.table).rows,
          ir.1 = a.id ∧ ir.2.deleted_at = none ∧
          (a.table = TName.genzai ∨ a.table = TName.ukeoi →
            ir.2.get "現在" = some "在職中") ∧
          ∃ v, ir.2.get "ビザ期限" = some v ∧ v ≠ "" ∧
            sqlLe v (isoOfDays (today + days)) = true ∧
            ∃ e, strptimeYMD (strTake v 10) = some e ∧
              a.days_left = e - today ∧
              a.alert_class =
                (if a.days_left ≤ 0 then "expired"
                 else if a.days_left ≤ 30 then "urgent"
                 else if a.days_left ≤ 60 then "warning"
                 else "upcoming") ∧
              a.alert_level =
                (if a.days_left ≤ 0 then "🔴 期限切れ"
                 else if a.days_left ≤ 30 then "🔴 緊急"
                 else if a.days_left ≤ 60 then "🟠 警告"
                 else "🟡 注意") := by
      intro tn label hmem
      obtain ⟨htbl, ir, hmemr, hid, hdel, hstat, v, hv, hvne, hvle, e, hp,
        hdl, hlev, hcls⟩ := tableAlerts_sound db tn label today _ a hmem
      subst htbl
      refine ⟨ir, hmemr, hid, hdel, hstat, v, hv, hvne, hvle, e, hp, hdl,
        ?_, ?_⟩
      · rw [hcls, hdl]
        unfold severityOf
        split_ifs <;> rfl
      · rw [hlev, hdl]
        unfold severityOf
        split_ifs <;> rfl
    rcases List.mem_append.mp ha with h | h
    · rcases List.mem_append.mp h with h' | h'
      · exact main _ _ h'
      · exact main _ _ h'
    · exact main _ _ h
  · exact List.sorted_insertionSort alertLe _

/-- The alert `get_visa_alerts` produces for `wRow` twenty days (10 days
here) before its expiry. -/
def w9alert : Alert :=
  { id := 1, category := "派遣", table := .genzai, employee_id := none,
    name := "X", visa_type := "—", expiry_date := "2024-10-01",
    days_left := 10, alert_level := "🔴 緊急", alert_class := "urgent" }

/-- C9 witness at a concrete input. -/
theorem C9_witness :
    (∃ ir ∈ (wDB.tbl w9alert.table).rows,
      ir.1 = w9alert.id ∧
      ir.2.deleted_at = none ∧
      (w9alert.table = TName.genzai ∨ w9alert.table = TName.ukeoi →
        ir.2.get "現在" = some "在職中") ∧
      ∃ v, ir.2.get "ビザ期限" = some v ∧ v ≠ "" ∧
        sqlLe v (isoOfDays (daysFromCivil 2024 9 21 + 90)) = true ∧
        ∃ e, strptimeYMD (strTake v 10) = some e ∧
          w9alert.days_left = e - daysFromCivil 2024 9 21 ∧
          w9alert.alert_class =
            (if w9alert.days_left ≤ 0 then "expired"
             else if w9alert.days_left ≤ 30 then "urgent"
             else if w9alert.days_left ≤ 60 then "warning"
             else "upcoming") ∧
          w9alert.alert_level =
            (if w9alert.days_left ≤ 0 then "🔴 期限切れ"
             else if w9alert.days_left ≤ 30 then "🔴 緊急"
             else if w9alert.days_left ≤ 60 then "🟠 警告"
             else "🟡 注意")) ∧
    List.Pairwise (fun x y => x.days_left ≤ y.days_left)
      (get_visa_alerts wDB (daysFromCivil 2024 9 21) 90) := by
  have h := C9_visa_alert_soundness wDB (daysFromCivil 2024 9 21) 90
  exact ⟨h.1 w9alert (by decide), h.2⟩

/-! ## Claims C8 and C10 -/

/-- A genzai sheet with one real row and two blank rows (every value
normalizing to NULL). -/
def wSheet : Sheet :=
  ⟨["社員№", "氏名", "junk"],
   [[("社員№", .str "1001"), ("氏名", .str "A"), ("junk", .str "z")],
    [("社員№", .nan), ("氏名", .str "")],
    [("社員№", .str "0"), ("氏名", .nan)]]⟩

/-- A workbook whose genzai sheet is readable and whose other sheets are
not. -/
def wWB : TName → Option Sheet :=
  fun t => match t with
  | .genzai => some wSheet
  | _ => none

/-- A workbook with a readable genzai sheet, an unreadable ukeoi sheet
and a present but zero-column (blank) staff sheet. -/
def blankStaffWB : TName → Option Sheet :=
  fun t => match t with
  | .genzai => some wSheet
  | .ukeoi => none
  | .staff => some ⟨[], []⟩

/-- C8 counterexample: with a readable genzai sheet but a present blank
staff sheet, `df.columns[0]` raises an uncaught IndexError: the genzai
category was already truncated, re-imported and committed, the staff
table is untouched, but the call dies before returning any counts — so
“the returned per-category count” does not exist even for the readable
category. -/
theorem C8_counterexample :
    blankStaffWB .genzai = some wSheet ∧
    (import_from_excel wDB blankStaffWB "T").2
      = Except.error ImportError.indexError ∧
    ((import_from_excel wDB blankStaffWB "T").1.tbl TName.genzai).rows.length
      = 1 ∧
    (import_from_excel wDB blankStaffWB "T").1.tbl TName.staff
      = wDB.tbl TName.staff := by
  decide

/-- C8 as amended: provided the staff sheet, when present, has at least
one header column (otherwise the whole import aborts with an uncaught
IndexError before any staff-table statement, earlier categories staying
committed and no counts being returned), every category with a readable
sheet is truncated — no pre-existing row, soft-deleted or not, survives,
all fresh rows carry ids unseen before — every all-null source row is
skipped, and the returned count equals the number of rows actually
inserted. -/
theorem C8_amended_import_truncate_and_count (db : DB)
    (wb : TName → Option Sheet) (now : String) (tn : TName) (s ps : Sheet)
    (hwf : ∀ ir ∈ (db.tbl tn).rows, ir.1 < (db.tbl tn).nextId)
    (hs : wb tn = some s)
    (hps : processSheet tn s = some ps)
    (hok : staffColsOk (wb .staff)) :
    (∃ cs, (import_from_excel db wb now).2 = Except.ok cs ∧
      cs.lookup tn = some (insertedVals tn ps).length) ∧
    (((import_from_excel db wb now).1.tbl tn).rows.length
      = (insertedVals tn ps).length) ∧
    (∀ ir ∈ (db.tbl tn).rows,
      ∀ jr ∈ ((import_from_excel db wb now).1.tbl tn).rows, ir.1 ≠ jr.1) := by
  obtain ⟨db1, c1, db2, c2, db3, c3, h1, h2, h3, hfe⟩ :=
    import_run db wb now hok
  cases tn with
  | genzai =>
    rw [hs] at h1
    obtain ⟨ht, hc⟩ := importStep_tbl_self db db1 .genzai s ps now c1 hps h1
    have htbl : (import_from_excel db wb now).1.tbl TName.genzai
        = db1.tbl TName.genzai := by
      rw [hfe, tbl_addAudit,
        importStep_preserves db2 db3 .staff .genzai _ now c3 (by decide) h3,
        importStep_preserves db1 db2 .ukeoi .genzai _ now c2 (by decide) h2]
    refine ⟨⟨[(.genzai, c1), (.ukeoi, c2), (.staff, c3)], by rw [hfe], ?_⟩,
      ?_, ?_⟩
    · show some c1 = _
      rw [hc]
    · rw [htbl, ht]
      simp
    · intro ir hir jr hjr
      rw [htbl, ht] at hjr
      simp only [List.mem_map] at hjr
      obtain ⟨iv, hiv, hjr'⟩ := hjr
      have hlt := hwf ir hir
      rw [← hjr']
      show ir.1 ≠ (db.tbl TName.genzai).nextId + iv.1
      omega
  | ukeoi =>
    rw [hs] at h2
    have hpre : db1.tbl TName.ukeoi = db.tbl TName.ukeoi :=
      importStep_preserves db db1 .genzai .ukeoi _ now c1 (by decide) h1
    obtain ⟨ht, hc⟩ := importStep_tbl_self db1 db2 .ukeoi s ps now c2 hps h2
    rw [hpre] at ht
    have htbl : (import_from_excel db wb now).1.tbl TName.ukeoi
        = db2.tbl TName.ukeoi := by
      rw [hfe, tbl_addAudit,
        importStep_preserves db2 db3 .staff .ukeoi _ now c3 (by decide) h3]
    refine ⟨⟨[(.genzai, c1), (.ukeoi, c2), (.staff, c3)], by rw [hfe], ?_⟩,
      ?_, ?_⟩
    · show some c2 = _
      rw [hc]
    · rw [htbl, ht]
      simp
    · intro ir hir jr hjr
      rw [htbl, ht] at hjr
      simp only [List.mem_map] at hjr
      obtain ⟨iv, hiv, hjr'⟩ := hjr
      have hlt := hwf ir hir
      rw [← hjr']
      show ir.1 ≠ (db.tbl TName.ukeoi).nextId + iv.1
      omega
  | staff =>
    rw [hs] at h3
    have hpre : db2.tbl TName.staff = db.tbl TName.staff := by
      rw [importStep_preserves db1 db2 .ukeoi .staff _ now c2 (by decide) h2,
        importStep_preserves db db1 .genzai .staff _ now c1 (by decide) h1]
    obtain ⟨ht, hc⟩ := importStep_tbl_self db2 db3 .staff s ps now c3 hps h3
    rw [hpre] at ht
    have htbl : (import_from_excel db wb now).1.tbl TName.staff
        = db3.tbl TName.staff := by
      rw [hfe, tbl_addAudit]
    refine ⟨⟨[(.genzai, c1), (.ukeoi, c2), (.staff, c3)], by rw [hfe], ?_⟩,
      ?_, ?_⟩
    · show some c3 = _
      rw [hc]
    · rw [htbl, ht]
      simp
    · intro ir hir jr hjr
      rw [htbl, ht] at hjr
      simp only [List.mem_map] at hjr
      obtain ⟨iv, hiv, hjr'⟩ := hjr
      have hlt := hwf ir hir
      rw [← hjr']
      show ir.1 ≠ (db.tbl TName.staff).nextId + iv.1
      omega

/-- C8 witness at a concrete input. -/
theorem C8_witness :
    ∃ cs, (import_from_excel wDB wWB "T").2 = Except.ok cs ∧
      cs.lookup TName.genzai = some 1 ∧
      ((import_from_excel wDB wWB "T").1.tbl TName.genzai).rows.length = 1 := by
  obtain ⟨⟨cs, hcs, hl⟩, hlen, _⟩ :=
    C8_amended_import_truncate_and_count wDB wWB "T" .genzai wSheet
      (dropAlertCol wSheet) (by decide) rfl rfl (by decide)
  exact ⟨cs, hcs, hl.trans (by decide), hlen.trans (by decide)⟩

/-- C10 counterexample: the ukeoi sheet is unreadable, yet because the
(readable but blank) staff sheet crashes the import with an uncaught
IndexError, no result is returned at all — so no “result mapping the
unreadable category to zero” exists. -/
theorem C10_counterexample :
    blankStaffWB .ukeoi = none ∧
    (import_from_excel wDB blankStaffWB "T").2
      = Except.error ImportError.indexError := by
  decide

/-- C10 as amended: provided the staff sheet, when present, has at least
one header column (otherwise the import aborts with an uncaught
IndexError and returns nothing), a category whose sheet cannot be read
keeps its table entirely unchanged — soft-deleted rows included, no
truncation — the returned counts map it to zero, and every readable
category is still imported with its own surviving-row count. -/
theorem C10_amended_unreadable_sheet (db : DB) (wb : TName → Option Sheet)
    (now : String) (tn : TName) (hs : wb tn = none)
    (hok : staffColsOk (wb .staff)) :
    ((import_from_excel db wb now).1.tbl tn = db.tbl tn) ∧
    (∃ cs, (import_from_excel db wb now).2 = Except.ok cs ∧
      cs.lookup tn = some 0 ∧
      (∀ tn' s' ps', wb tn' = some s' → processSheet tn' s' = some ps' →
        cs.lookup tn' = some (insertedVals tn' ps').length)) := by
  obtain ⟨db1, c1, db2, c2, db3, c3, h1, h2, h3, hfe⟩ :=
    import_run db wb now hok
  have hcount : ∀ tn' s' ps', wb tn' = some s' →
      processSheet tn' s' = some ps' →
      ([(TName.genzai, c1), (TName.ukeoi, c2),
        (TName.staff, c3)].lookup tn')
        = some (insertedVals tn' ps').length := by
    intro tn' s' ps' hs' hps'
    cases tn' with
    | genzai =>
      rw [hs'] at h1
      show some c1 = _
      rw [(importStep_tbl_self db db1 .genzai s' ps' now c1 hps' h1).2]
    | ukeoi =>
      rw [hs'] at h2
      show some c2 = _
      rw [(importStep_tbl_self db1 db2 .ukeoi s' ps' now c2 hps' h2).2]
    | staff =>
      rw [hs'] at h3
      show some c3 = _
      rw [(importStep_tbl_self db2 db3 .staff s' ps' now c3 hps' h3).2]
  have hzero : ([(TName.genzai, c1), (TName.ukeoi, c2),
      (TName.staff, c3)].lookup tn) = some 0 := by
    cases tn with
    | genzai =>
      rw [hs] at h1
      show some c1 = _
      rw [(importStep_none_inv db db1 .genzai now c1 h1).2]
    | ukeoi =>
      rw [hs] at h2
      show some c2 = _
      rw [(importStep_none_inv db1 db2 .ukeoi now c2 h2).2]
    | staff =>
      rw [hs] at h3
      show some c3 = _
      rw [(importStep_none_inv db2 db3 .staff now c3 h3).2]
  refine ⟨?_, [(.genzai, c1), (.ukeoi, c2), (.staff, c3)], by rw [hfe],
    hzero, hcount⟩
  cases tn with
  | genzai =>
    rw [hs] at h1
    rw [hfe, tbl_addAudit,
      importStep_preserves db2 db3 .staff .genzai _ now c3 (by decide) h3,
      importStep_preserves db1 db2 .ukeoi .genzai _ now c2 (by decide) h2,
      (importStep_none_inv db db1 .genzai now c1 h1).1]
  | ukeoi =>
    rw [hs] at h2
    rw [hfe, tbl_addAudit,
      importStep_preserves db2 db3 .staff .ukeoi _ now c3 (by decide) h3,
      (importStep_none_inv db1 db2 .ukeoi now c2 h2).1,
      importStep_preserves db db1 .genzai .ukeoi _ now c1 (by decide) h1]
  | staff =>
    rw [hs] at h3
    rw [hfe, tbl_addAudit, (importStep_none_inv db2 db3 .staff now c3 h3).1,
      importStep_preserves db1 db2 .ukeoi .staff _ now c2 (by decide) h2,
      importStep_preserves db db1 .genzai .staff _ now c1 (by decide) h1]

/-- C10 witness at a concrete input. -/
theorem C10_witness :
    (import_from_excel wDB wWB "T").1.tbl TName.ukeoi = wDB.tbl TName.ukeoi ∧
    ∃ cs, (import_from_excel wDB wWB "T").2 = Except.ok cs ∧
      cs.lookup TName.ukeoi = some 0 ∧
      cs.lookup TName.genzai = some 1 := by
  obtain ⟨h1, cs, hcs, h2, h3⟩ :=
    C10_amended_unreadable_sheet wDB wWB "T" .ukeoi rfl (by decide)
  exact ⟨h1, cs, hcs, h2,
    (h3 .genzai wSheet (dropAlertCol wSheet) rfl rfl).trans (by decide)⟩

/-- C7 witness at a concrete input. -/
theorem C7_witness :
    (delete_employee wDB .genzai 1 "t1").2 = true ∧
    (∀ x ∈ get_all (delete_employee wDB .genzai 1 "t1").1 .genzai false false,
      x.1 ≠ 1) ∧
    (∃ x ∈ get_deleted (delete_employee wDB .genzai 1 "t1").1 .genzai,
      x.1 = 1) ∧
    (∃ x ∈ get_all
        (restore_employee (delete_employee wDB .genzai 1 "t1").1
          .genzai 1 "t2").1 .genzai false false, x.1 = 1) ∧
    get_employee
      (hard_delete_employee
        (restore_employee (delete_employee wDB .genzai 1 "t1").1
          .genzai 1 "t2").1 .genzai 1 "t3").1 .genzai 1 = none := by
  obtain ⟨ha, hb, hc, _, he, _, hg, _, _, _, _⟩ :=
    C7_lifecycle wDB .genzai 1 wRow "t1" "t2" "t3" (by decide) (by decide)
      (delete_employee wDB .genzai 1 "t1").1
      (delete_employee wDB .genzai 1 "t1").2 rfl
      (restore_employee (delete_employee wDB .genzai 1 "t1").1
        .genzai 1 "t2").1
      (restore_employee (delete_employee wDB .genzai 1 "t1").1
        .genzai 1 "t2").2 rfl
      (hard_delete_employee
        (restore_employee (delete_employee wDB .genzai 1 "t1").1
          .genzai 1 "t2").1 .genzai 1 "t3").1
      (hard_delete_employee
        (restore_employee (delete_employee wDB .genzai 1 "t1").1
          .genzai 1 "t2").1 .genzai 1 "t3").2 rfl
  exact ⟨ha, hb, hc, he, hg⟩

end ShainDB
